import Mathlib

/-!
# Verification of the market-agent workflow orchestration core

Shallow embedding of the workflow orchestration and agent-execution state
machine of the market-agent repository:

* `core/state.py` — `WorkflowStatus`, `AgentResult`, `ApprovalRequest`,
  `WorkflowContext` with `add_result`, `set_pending_approval`,
  `clear_approval`, `to_dict`, `from_dict`, `save`/`load`;
* `core/orchestrator.py` — `Orchestrator.run_workflow`,
  `run_single_agent`, `approve`, `reject`, `get_status`;
* `core/base_agent.py` — `BaseAgent.run` (the try/except boundary that
  converts agent-internal exceptions into failed `AgentResult`s).

Modelling conventions:

* Agent outputs are opaque payloads of a type parameter `V` (Python `Any`);
  a Python value that may be `None` is `Option V`.
* Python dicts keyed by strings are association lists `List (String × α)`
  with insert-or-overwrite semantics (`dictSet`), which preserves key order
  the way CPython dicts do.
* Timestamps (`datetime.utcnow().isoformat()`) are opaque strings supplied
  as an explicit `now` argument at each mutation site.
* The file-based durable store (`WorkflowContext.save`/`load` under the
  state directory) is a `Store V`: an association list from workflow id to
  the persisted context snapshot; `save` overwrites by id (last-write-wins).
* Orchestrator operations return, besides the context, the ordered list of
  snapshots they persisted (`context.save` call sites), so that properties
  of every persisted context can be stated.
* An exception raised inside an agent's internal work (prompt building,
  model call, response processing) is modelled as the `.error msg` outcome
  of the agent's `behavior`; `BaseAgent.run` is the total function that
  converts that outcome into an `AgentResult`.  The orchestration
  functions are total Lean functions: agent failures are values, never
  exceptions, mirroring the try/except in `BaseAgent.run`.
-/

namespace MarketAgent

/-- Insert-or-overwrite on an association list, keeping the position of an
existing key (CPython dict assignment `d[k] = v`). -/
def dictSet {α : Type} (d : List (String × α)) (k : String) (v : α) :
    List (String × α) :=
  match d with
  | [] => [(k, v)]
  | (k', v') :: rest =>
    if k' = k then (k, v) :: rest else (k', v') :: dictSet rest k v

/-- Lookup on an association list (`d.get(k)` returning `None` if absent). -/
def dictGet {α : Type} (d : List (String × α)) (k : String) : Option α :=
  match d with
  | [] => none
  | (k', v') :: rest => if k' = k then some v' else dictGet rest k

/-- `class WorkflowStatus(str, Enum)` from `core/state.py`. -/
inductive WorkflowStatus where
  | pending
  | running
  | waitingApproval
  | completed
  | failed
  | rejected
  deriving DecidableEq, Repr

/-- The `.value` string tag of each `WorkflowStatus` member. -/
def WorkflowStatus.value : WorkflowStatus → String
  | .pending => "pending"
  | .running => "running"
  | .waitingApproval => "waiting_approval"
  | .completed => "completed"
  | .failed => "failed"
  | .rejected => "rejected"

/-- `WorkflowStatus(s)`: the enum-by-value constructor, which raises
`ValueError` (here: `none`) on an unknown tag. -/
def WorkflowStatus.ofString (s : String) : Option WorkflowStatus :=
  if s = "pending" then some .pending
  else if s = "running" then some .running
  else if s = "waiting_approval" then some .waitingApproval
  else if s = "completed" then some .completed
  else if s = "failed" then some .failed
  else if s = "rejected" then some .rejected
  else none

/-- `@dataclass AgentResult` from `core/state.py`.  `output` is `Any = None`,
hence `Option V`; `error: Optional[str]`.  Since `AgentResult.to_dict`
(`asdict`) and `AgentResult.from_dict` (`cls(**data)`) are the canonical
field-by-field bijection between the dataclass and its dict, the record
stands for both the dataclass and its dict form. -/
structure AgentResult (V : Type) where
  agent_name : String
  success : Bool
  output : Option V := none
  error : Option String := none
  timestamp : String := ""
  deriving DecidableEq, Repr

/-- `@dataclass ApprovalRequest` from `core/state.py`. -/
structure ApprovalRequest (V : Type) where
  agent_name : String
  content : Option V
  content_type : String
  created_at : String := ""
  message : String := ""
  deriving DecidableEq, Repr

/-- The dict form of an `ApprovalRequest` (`asdict`); structurally the same
five fields.  It is always a non-empty (hence truthy) Python dict. -/
structure ApprovalRequestDoc (V : Type) where
  agent_name : String
  content : Option V
  content_type : String
  created_at : String
  message : String
  deriving DecidableEq, Repr

/-- `ApprovalRequest.to_dict`. -/
def ApprovalRequest.to_dict {V : Type} (r : ApprovalRequest V) :
    ApprovalRequestDoc V :=
  { agent_name := r.agent_name
    content := r.content
    content_type := r.content_type
    created_at := r.created_at
    message := r.message }

/-- `ApprovalRequest.from_dict` (`cls(**data)`). -/
def ApprovalRequest.from_dict {V : Type} (d : ApprovalRequestDoc V) :
    ApprovalRequest V :=
  { agent_name := d.agent_name
    content := d.content
    content_type := d.content_type
    created_at := d.created_at
    message := d.message }

/-- `@dataclass WorkflowContext` from `core/state.py`.  `data` maps agent
name to output payload; `agent_results` is the list of appended
`AgentResult.to_dict()` records. -/
structure WorkflowContext (V : Type) where
  workflow_id : String
  workflow_name : String := ""
  created_at : String := ""
  updated_at : String := ""
  status : WorkflowStatus := .pending
  current_agent : Option String := none
  data : List (String × V) := []
  agent_results : List (AgentResult V) := []
  pending_approval : Option (ApprovalRequest V) := none
  error : Option String := none
  deriving DecidableEq, Repr

/-- `WorkflowContext.add_result`: append the result record to
`agent_results`; `if result.output is not None: data[name] = output`;
refresh `updated_at`. -/
def WorkflowContext.add_result {V : Type} (ctx : WorkflowContext V)
    (result : AgentResult V) (now : String) : WorkflowContext V :=
  { ctx with
    agent_results := ctx.agent_results ++ [result]
    data := match result.output with
      | some v => dictSet ctx.data result.agent_name v
      | none => ctx.data
    updated_at := now }

/-- `WorkflowContext.set_pending_approval`: set `pending_approval`, set
`status = WAITING_APPROVAL`, refresh `updated_at`. -/
def WorkflowContext.set_pending_approval {V : Type} (ctx : WorkflowContext V)
    (request : ApprovalRequest V) (now : String) : WorkflowContext V :=
  { ctx with
    pending_approval := some request
    status := .waitingApproval
    updated_at := now }

/-- `WorkflowContext.clear_approval`: clear `pending_approval`, refresh
`updated_at` (status left for the caller). -/
def WorkflowContext.clear_approval {V : Type} (ctx : WorkflowContext V)
    (now : String) : WorkflowContext V :=
  { ctx with
    pending_approval := none
    updated_at := now }

/-- The structured document produced by `WorkflowContext.to_dict`: every
field present, `status` as its string tag, `pending_approval` as an optional
nested dict. -/
structure WorkflowContextDoc (V : Type) where
  workflow_id : String
  workflow_name : String
  created_at : String
  updated_at : String
  status : String
  current_agent : Option String
  data : List (String × V)
  agent_results : List (AgentResult V)
  pending_approval : Option (ApprovalRequestDoc V)
  error : Option String
  deriving DecidableEq, Repr

/-- `WorkflowContext.to_dict`.  In the source, contexts built by the state
machine always hold a `WorkflowStatus` member, so the `isinstance` branch
emits `self.status.value`; `pending_approval.to_dict() if pending_approval
else None` maps over the option. -/
def WorkflowContext.to_dict {V : Type} (ctx : WorkflowContext V) :
    WorkflowContextDoc V :=
  { workflow_id := ctx.workflow_id
    workflow_name := ctx.workflow_name
    created_at := ctx.created_at
    updated_at := ctx.updated_at
    status := ctx.status.value
    current_agent := ctx.current_agent
    data := ctx.data
    agent_results := ctx.agent_results
    pending_approval := ctx.pending_approval.map ApprovalRequest.to_dict
    error := ctx.error }

/-- `WorkflowContext.from_dict` on a document carrying every key (which is
what `to_dict` always emits, so the `data.get(..., default)` fallbacks are
dead here).  `WorkflowStatus(status)` raises (`none`) on an unknown tag.
`if pending_approval:` is truthiness on a dict; an `ApprovalRequest` dict
has five keys and is never empty, so this is exactly the `Option` match. -/
def WorkflowContext.from_dict {V : Type} (d : WorkflowContextDoc V) :
    Option (WorkflowContext V) :=
  match WorkflowStatus.ofString d.status with
  | none => none
  | some st =>
    some
      { workflow_id := d.workflow_id
        workflow_name := d.workflow_name
        created_at := d.created_at
        updated_at := d.updated_at
        status := st
        current_agent := d.current_agent
        data := d.data
        agent_results := d.agent_results
        pending_approval := d.pending_approval.map ApprovalRequest.from_dict
        error := d.error }

/-- `WorkflowContext.save`/`load` persist one JSON document per workflow id
under the state directory: the durable store is a map from id to snapshot,
overwritten whole on every save. -/
abbrev Store (V : Type) := List (String × WorkflowContext V)

/-- `WorkflowContext.save(state_dir)`: overwrite the snapshot keyed by
`workflow_id`. -/
def Store.save {V : Type} (s : Store V) (ctx : WorkflowContext V) : Store V :=
  dictSet s ctx.workflow_id ctx

/-- `WorkflowContext.load(workflow_id, state_dir)`: the snapshot for the id,
or `None` if the file does not exist. -/
def Store.load {V : Type} (s : Store V) (workflow_id : String) :
    Option (WorkflowContext V) :=
  dictGet s workflow_id

/-- An agent as the orchestrator sees it: a `name`, a `requires_approval`
flag, and the observable outcome of calling its `run(context)` method for
this step.  `core/base_agent.py` supplies an inherited `run` that never
raises, but subclasses may (and do) override `run` entirely —
`DataCollectionAgent`, `OnchainAgent`, `MonitorAgent`, `FundFlowAgent` —
so the orchestrator can observe any of:

* `.ok r` — `run` returned the result `r`, of *any* shape: a failed result
  carrying a non-`None` output (`DataCollectionAgent.run`,
  data_collection_agent.py 105-113), a success wrapping an error text
  (`OnchainAgent.run`, onchain_agent.py 99-104), or the disciplined
  `BaseAgent.run` shape (see `BaseAgent.run` below);
* `.error exc` — `run` let an exception with message `exc` propagate to
  the orchestrator (impossible through `BaseAgent.run`'s try/except, but
  possible in overriding agents, e.g. `OnchainAgent`'s unguarded file
  writes at onchain_agent.py 79-97).

Because `run` calls external services, the outcome is an input to the
model, not a function of the context. -/
structure Agent (V : Type) where
  name : String
  requires_approval : Bool
  runOutcome : Except String (AgentResult V)
  deriving Repr

/-- `BaseAgent.run` (`core/base_agent.py` 46-80): the inherited try/except
boundary used by the agents that do *not* override `run` (ReportAgent,
DeepAnalysisAgent, SocialAgent).  Its body — `get_prompt`, the external
`generate_content` call, `process_response` — either produces a processed
output (possibly Python `None`) or raises with message `msg`; `run`
converts the first case into `AgentResult(name, success=True,
output=output)` (error defaults to `None`) and the second into
`AgentResult(name, success=False, error=str(e))` (output defaults to
`None`).  Total: no exception escapes this wrapper. -/
def BaseAgent.run {V : Type} (name : String) (body : Except String (Option V))
    (now : String) : AgentResult V :=
  match body with
  | .ok output =>
    { agent_name := name, success := true, output := output, error := none
      timestamp := now }
  | .error msg =>
    { agent_name := name, success := false, output := none
      error := some msg, timestamp := now }

/-- `OnchainAgent.run` in full mode (`onchain_agent.py` 65-104) on the path
where collection and the file writes succeed: `_generate_analysis`
(lines 271-339) catches an exception from the external model call and
returns the *string* "Error generating analysis: <msg>" instead of
raising, and `run` wraps whatever came back in a `success=True` result
(lines 99-104), carrying only the collector's error field. -/
def OnchainAgent.runFull (modelCall : Except String String)
    (collectError : Option String) (now : String) : AgentResult String :=
  { agent_name := "onchain_agent"
    success := true
    output := some (match modelCall with
      | .ok text => text
      | .error msg => "Error generating analysis: " ++ msg)
    error := collectError
    timestamp := now }

/-- One orchestrator-loop step that neither stops nor raises: the agent's
`run` returned `r` with `success=True`, the agent needs no approval, and —
as every repository agent does — `r` is stamped with the agent's own
`name` (`agent_name=self.name` at every `AgentResult` construction
site). -/
def okStep {V : Type} (a : Agent V) (r : AgentResult V) : Prop :=
  a.runOutcome = Except.ok r ∧ r.success = true ∧
    a.requires_approval = false ∧ r.agent_name = a.name

/-- The agent loop of `Orchestrator.run_workflow` (lines 89–128), with the
list of persisted snapshots in order.  Per iteration: set `current_agent`
and persist; call `agent.run` — the orchestrator has *no* try/except, so
an exception propagating out of an overriding agent's `run` propagates out
of `run_workflow` itself, after the pre-run checkpoint was persisted;
otherwise `add_result` the returned result; on `success=False` set
`FAILED`/`error`, persist and return; if `requires_approval`, build the
`ApprovalRequest` from the output, `set_pending_approval`, persist and
return; otherwise continue.  After the loop: `COMPLETED`, clear
`current_agent`, persist.  (The `storage.save_report` /
`save_analysis` / `save_pending_draft` hand-offs are out-of-scope
collaborators and do not touch the context.) -/
def runAgents {V : Type} (agents : List (Agent V)) (ctx : WorkflowContext V)
    (now : String) :
    Except String (WorkflowContext V) × List (WorkflowContext V) :=
  match agents with
  | [] =>
    let ctxDone :=
      { ctx with status := WorkflowStatus.completed, current_agent := none }
    (Except.ok ctxDone, [ctxDone])
  | a :: rest =>
    let ctx1 := { ctx with current_agent := some a.name }
    match a.runOutcome with
    | .error exc => (Except.error exc, [ctx1])
    | .ok result =>
      let ctx2 := ctx1.add_result result now
      if result.success = false then
        let ctxF :=
          { ctx2 with status := WorkflowStatus.failed, error := result.error }
        (Except.ok ctxF, [ctx1, ctxF])
      else if a.requires_approval then
        let ctxW := ctx2.set_pending_approval
          { agent_name := a.name
            content := result.output
            content_type := "tweet_draft"
            created_at := now
            message := "Please review the tweet draft before publishing." }
          now
        (Except.ok ctxW, [ctx1, ctxW])
      else
        let next := runAgents rest ctx2 now
        (next.1, ctx1 :: next.2)

/-- `Orchestrator.run_workflow` with the workflow name already resolved to
its agent list (the registry lookup that raises `ValueError` on an unknown
name happens before any of the behavior claimed here).  A fresh context is
created (status `PENDING` then immediately `RUNNING`); `skip_analysis`
filters out `deep_analysis_agent` before execution begins.  (The
`analysis_topic` parameterization only mutates prompt inputs of the
out-of-scope model call.)  Returns the final context — or the message of
an exception that escaped an agent's overridden `run` — and every
persisted snapshot in order. -/
def run_workflow {V : Type} (workflow_name : String) (agents : List (Agent V))
    (skip_analysis : Bool) (wid now : String) :
    Except String (WorkflowContext V) × List (WorkflowContext V) :=
  let ctx0 : WorkflowContext V :=
    { workflow_id := wid
      workflow_name := workflow_name
      created_at := now
      updated_at := now
      status := WorkflowStatus.running }
  let resolved :=
    if skip_analysis then
      agents.filter (fun a => a.name ≠ "deep_analysis_agent")
    else agents
  runAgents resolved ctx0 now

/-- `Orchestrator.run_single_agent` with the agent already resolved (the
registry lookup raising `ValueError` happens first).  Uses the provided
context or a fresh one named `single_<name>`; sets `RUNNING` and
`current_agent`; calls `agent.run` — with no try/except here either, an
exception escaping an overridden `run` propagates out before anything is
persisted; otherwise records the result; on success sets `COMPLETED`, on
failure `FAILED` with `error`; clears `current_agent`; persists once and
returns. -/
def run_single_agent {V : Type} (a : Agent V)
    (context : Option (WorkflowContext V)) (wid now : String) :
    Except String (WorkflowContext V) × List (WorkflowContext V) :=
  let ctx0 : WorkflowContext V :=
    match context with
    | some c => c
    | none =>
      { workflow_id := wid
        workflow_name := "single_" ++ a.name
        created_at := now
        updated_at := now }
  let ctx1 :=
    { ctx0 with status := WorkflowStatus.running, current_agent := some a.name }
  match a.runOutcome with
  | .error exc => (Except.error exc, [])
  | .ok result =>
    let ctx2 := ctx1.add_result result now
    let ctx3 :=
      if result.success then { ctx2 with status := WorkflowStatus.completed }
      else
        { ctx2 with status := WorkflowStatus.failed, error := result.error }
    let ctx4 := { ctx3 with current_agent := none }
    (Except.ok ctx4, [ctx4])

/-- The `ValueError`s `approve`/`reject` raise to the caller. -/
inductive OrchestratorError where
  | notFound (workflow_id : String)
  | invalidState (status : WorkflowStatus)
  | noPendingApproval
  deriving DecidableEq, Repr

/-- `Orchestrator.approve`: load the context (`notFound` if absent); raise
`invalidState` unless status is `WAITING_APPROVAL`; raise
`noPendingApproval` if `pending_approval is None`; otherwise promote the
draft in the out-of-scope draft store, `clear_approval`, set `COMPLETED`,
persist, return.  Returns the store as left by the call (untouched on every
error path, since every raise precedes `context.save`). -/
def approve {V : Type} (s : Store V) (workflow_id now : String) :
    Store V × Except OrchestratorError (WorkflowContext V) :=
  match s.load workflow_id with
  | none => (s, Except.error (OrchestratorError.notFound workflow_id))
  | some ctx =>
    if ctx.status ≠ WorkflowStatus.waitingApproval then
      (s, Except.error (OrchestratorError.invalidState ctx.status))
    else
      match ctx.pending_approval with
      | none => (s, Except.error OrchestratorError.noPendingApproval)
      | some _ =>
        let ctx1 := ctx.clear_approval now
        let ctx2 := { ctx1 with status := WorkflowStatus.completed }
        (s.save ctx2, Except.ok ctx2)

/-- `Orchestrator.reject`: load the context (`notFound` if absent); raise
`invalidState` unless status is `WAITING_APPROVAL` (no pending-approval
null check, unlike `approve`); delete the out-of-scope pending draft;
`clear_approval`, set `REJECTED`, set `error = reason or "Rejected by
user"` (Python truthiness: `None` *and the empty string* fall back to the
default), persist, return. -/
def reject {V : Type} (s : Store V) (workflow_id : String)
    (reason : Option String) (now : String) :
    Store V × Except OrchestratorError (WorkflowContext V) :=
  match s.load workflow_id with
  | none => (s, Except.error (OrchestratorError.notFound workflow_id))
  | some ctx =>
    if ctx.status ≠ WorkflowStatus.waitingApproval then
      (s, Except.error (OrchestratorError.invalidState ctx.status))
    else
      let ctx1 := ctx.clear_approval now
      let ctx2 :=
        { ctx1 with
          status := WorkflowStatus.rejected
          error := some (match reason with
            | none => "Rejected by user"
            | some r => if r = "" then "Rejected by user" else r) }
      (s.save ctx2, Except.ok ctx2)

/-- `Orchestrator.get_status`: pure read through the store. -/
def get_status {V : Type} (s : Store V) (workflow_id : String) :
    Option (WorkflowContext V) :=
  s.load workflow_id

/-- The C1 invariant on one context: `pending_approval` is non-null iff
`status == WAITING_APPROVAL`. -/
def approvalInvariant {V : Type} (ctx : WorkflowContext V) : Prop :=
  ctx.pending_approval ≠ none ↔ ctx.status = WorkflowStatus.waitingApproval

instance {V : Type} (ctx : WorkflowContext V) :
    Decidable (approvalInvariant ctx) :=
  decidable_of_iff
    (ctx.pending_approval.isSome = true ↔
      ctx.status = WorkflowStatus.waitingApproval)
    (iff_congr Option.isSome_iff_ne_none Iff.rfl)

/-- The context state after the orchestrator loop has processed a prefix of
steps — each an agent paired with the result its `run` returned — without
stopping: per step, `current_agent` is set and the result is recorded (the
intermediate persists are accounted for in `runAgents` itself). -/
def ctxAfter {V : Type} (ctx : WorkflowContext V)
    (steps : List (Agent V × AgentResult V)) (now : String) :
    WorkflowContext V :=
  match steps with
  | [] => ctx
  | (a, r) :: rest =>
    ctxAfter
      (({ ctx with current_agent := some a.name }).add_result r now)
      rest now

/-- A concrete context parked in `WAITING_APPROVAL` with its pending
request, as `run_workflow` leaves it at an approval gate; used as input for
concrete evaluations. -/
def waitingCtx : WorkflowContext Nat :=
  { workflow_id := "w"
    workflow_name := "daily"
    created_at := "t0"
    updated_at := "t0"
    status := WorkflowStatus.waitingApproval
    current_agent := some "social_agent"
    data := [("report_agent", 1), ("social_agent", 7)]
    agent_results :=
      [{ agent_name := "report_agent", success := true, output := some 1
         timestamp := "t0" },
       { agent_name := "social_agent", success := true, output := some 7
         timestamp := "t0" }]
    pending_approval := some
      { agent_name := "social_agent"
        content := some 7
        content_type := "tweet_draft"
        created_at := "t0"
        message := "Please review the tweet draft before publishing." }
    error := none }

/-! ## Helper lemmas about association lists -/

theorem dictGet_dictSet_self {α : Type} (d : List (String × α)) (k : String)
    (v : α) : dictGet (dictSet d k v) k = some v := by
  induction d with
  | nil => simp [dictSet, dictGet]
  | cons hd tl ih =>
    obtain ⟨k', v'⟩ := hd
    by_cases h : k' = k <;> simp [dictSet, dictGet, h, ih]

theorem dictGet_dictSet_ne {α : Type} (d : List (String × α))
    (k k' : String) (v : α) (h : k' ≠ k) :
    dictGet (dictSet d k v) k' = dictGet d k' := by
  induction d with
  | nil => simp [dictSet, dictGet, Ne.symm h]
  | cons hd tl ih =>
    obtain ⟨k'', v''⟩ := hd
    by_cases h2 : k'' = k
    · subst h2
      simp [dictSet, dictGet, Ne.symm h]
    · by_cases h3 : k'' = k' <;> simp [dictSet, dictGet, h2, h3, ih, h]

theorem forall₂_okStep_snd {V : Type} {pre : List (Agent V)}
    {rs : List (AgentResult V)} (h : List.Forall₂ okStep pre rs) :
    (pre.zip rs).map (fun p => p.2) = rs := by
  induction h with
  | nil => rfl
  | cons hab htl ih => simp [ih]

theorem ctxAfter_fields {V : Type} (steps : List (Agent V × AgentResult V))
    (ctx : WorkflowContext V) (now : String) :
    (ctxAfter ctx steps now).status = ctx.status ∧
    (ctxAfter ctx steps now).pending_approval = ctx.pending_approval ∧
    (ctxAfter ctx steps now).error = ctx.error ∧
    (ctxAfter ctx steps now).workflow_id = ctx.workflow_id ∧
    (ctxAfter ctx steps now).data = List.foldl
      (fun d p => match p.2.output with
        | some v => dictSet d p.2.agent_name v
        | none => d) ctx.data steps ∧
    (ctxAfter ctx steps now).agent_results =
      ctx.agent_results ++ steps.map (fun p => p.2) := by
  induction steps generalizing ctx with
  | nil => simp [ctxAfter]
  | cons st tl ih =>
    obtain ⟨a, r⟩ := st
    have h := ih
      (({ ctx with current_agent := some a.name }).add_result r now)
    simp only [ctxAfter, List.map_cons, List.foldl_cons]
    refine ⟨h.1, h.2.1, h.2.2.1, h.2.2.2.1, ?_, ?_⟩
    · rw [h.2.2.2.2.1]
      simp [WorkflowContext.add_result]
    · rw [h.2.2.2.2.2]
      simp [WorkflowContext.add_result]

theorem runAgents_append_ok {V : Type} {pre : List (Agent V)}
    {rs : List (AgentResult V)} (rest : List (Agent V))
    (ctx : WorkflowContext V) (now : String)
    (h : List.Forall₂ okStep pre rs) :
    (runAgents (pre ++ rest) ctx now).1 =
      (runAgents rest (ctxAfter ctx (pre.zip rs) now) now).1 := by
  induction h generalizing ctx with
  | nil => rfl
  | cons hab htl ih =>
    simp only [List.cons_append, runAgents]
    rw [hab.1]
    simp only [hab.2.1, hab.2.2.1, Bool.true_eq_false, if_false, ite_false,
      List.zip_cons_cons, ctxAfter]
    exact ih _

theorem runAgents_inv {V : Type} (agents : List (Agent V))
    (ctx : WorkflowContext V) (now : String)
    (h1 : ctx.status = WorkflowStatus.running)
    (h2 : ctx.pending_approval = none) :
    ∀ c ∈ (runAgents agents ctx now).2, approvalInvariant c := by
  induction agents generalizing ctx with
  | nil =>
    intro c hc
    simp [runAgents] at hc
    subst hc
    simp [approvalInvariant, h2]
  | cons a tl ih =>
    intro c hc
    cases ho : a.runOutcome with
    | error exc =>
      simp [runAgents, ho] at hc
      subst hc
      simp [approvalInvariant, h1, h2]
    | ok result =>
      by_cases hs : result.success = false
      · simp [runAgents, ho, hs] at hc
        rcases hc with hc | hc <;> subst hc <;>
          simp [approvalInvariant, WorkflowContext.add_result, h1, h2]
      · by_cases hr : a.requires_approval
        · simp [runAgents, ho, hs, hr] at hc
          rcases hc with hc | hc <;> subst hc <;>
            simp [approvalInvariant, WorkflowContext.add_result,
              WorkflowContext.set_pending_approval, h1, h2]
        · simp [runAgents, ho, hs, hr] at hc
          rcases hc with hc | hc
          · subst hc
            simp [approvalInvariant, h1, h2]
          · exact ih _ (by simp [WorkflowContext.add_result, h1])
              (by simp [WorkflowContext.add_result, h2]) c hc

/-! ## Claim theorems -/

/-- C4: for every `WorkflowContext` (in particular every one reachable via
the state machine), deserializing its serialized form reconstructs an equal
context: `from_dict (to_dict ctx) = some ctx`, every field surviving —
`status` through its string tag, the nested `ApprovalRequest` fully
reconstructed, `data` and `agent_results` with order and content
preserved. -/
theorem from_dict_to_dict_roundtrip {V : Type} (ctx : WorkflowContext V) :
    WorkflowContext.from_dict ctx.to_dict = some ctx := by
  obtain ⟨wid, wname, cat, uat, st, ca, data, ars, pa, err⟩ := ctx
  cases st <;> cases pa <;>
    simp [WorkflowContext.to_dict, WorkflowContext.from_dict,
      WorkflowStatus.value, WorkflowStatus.ofString,
      ApprovalRequest.to_dict, ApprovalRequest.from_dict]

/-- C5 counterexample: `add_result` keys `data` on `result.output is not
None`, not on `result.success`.  A successful `AgentResult` whose `output`
is `None` (the dataclass default) is appended to `agent_results` but writes
no `data` entry, refuting "sets `data[r.agent_name] = r.output` exactly
when `r.success` is true". -/
theorem add_result_success_condition_cex :
    (({ agent_name := "a", success := true } : AgentResult Nat).success
        = true) ∧
    (WorkflowContext.add_result (V := Nat) { workflow_id := "w" }
        { agent_name := "a", success := true } "t1").data = [] ∧
    dictGet (WorkflowContext.add_result (V := Nat) { workflow_id := "w" }
        { agent_name := "a", success := true } "t1").data
        "a" = none := by
  decide

/-- C5 amended: recording `r` appends `r` to `agent_results`, refreshes
`updated_at`, leaves every other key of `data` untouched, and sets
`data[r.agent_name] = r.output` exactly when `r.output` is not `None`
(regardless of `r.success`). -/
theorem add_result_spec {V : Type} (ctx : WorkflowContext V)
    (r : AgentResult V) (now : String) :
    (ctx.add_result r now).agent_results = ctx.agent_results ++ [r] ∧
    (ctx.add_result r now).updated_at = now ∧
    (∀ k, k ≠ r.agent_name →
      dictGet (ctx.add_result r now).data k = dictGet ctx.data k) ∧
    dictGet (ctx.add_result r now).data r.agent_name =
      (match r.output with
        | some v => some v
        | none => dictGet ctx.data r.agent_name) := by
  refine ⟨rfl, rfl, ?_, ?_⟩
  · intro k hk
    cases ho : r.output with
    | none => simp [WorkflowContext.add_result, ho]
    | some v =>
      simp only [WorkflowContext.add_result, ho]
      exact dictGet_dictSet_ne ctx.data r.agent_name k v hk
  · cases ho : r.output with
    | none => simp [WorkflowContext.add_result, ho]
    | some v =>
      simp only [WorkflowContext.add_result, ho]
      exact dictGet_dictSet_self ctx.data r.agent_name v

/-- Witness for the amended C5 at a concrete input. -/
theorem add_result_spec_witness :
    (WorkflowContext.add_result (V := Nat)
        { workflow_id := "w", data := [("b", 9)] }
        { agent_name := "a", success := false, output := some 3 }
        "t1").agent_results =
      [{ agent_name := "a", success := false, output := some 3 }] ∧
    dictGet (WorkflowContext.add_result (V := Nat)
        { workflow_id := "w", data := [("b", 9)] }
        { agent_name := "a", success := false, output := some 3 }
        "t1").data "b" = some 9 := by
  have h := add_result_spec (V := Nat)
    { workflow_id := "w", data := [("b", 9)] }
    { agent_name := "a", success := false, output := some 3 } "t1"
  exact ⟨h.1, (h.2.2.1 "b" (by decide)).trans (by decide)⟩

/-- C8 counterexample: `reject` computes `reason or "Rejected by user"`,
so the *empty-string* reason — a supplied reason — is replaced by the
default, refuting "sets `error` to the supplied reason" for every supplied
reason. -/
theorem reject_empty_reason_cex :
    ∃ c, (reject [("w", waitingCtx)] "w" (some "") "t1").2 = Except.ok c ∧
      c.error = some "Rejected by user" ∧ "Rejected by user" ≠ "" := by
  refine ⟨_, rfl, by decide, by decide⟩

/-- C8 amended: `approve(id)` and `reject(id, reason)` fail with a
not-found error when no context with that id exists, and with an
invalid-state error when the loaded context's status is not
`WAITING_APPROVAL`; on a `WAITING_APPROVAL` context, `reject` sets
`status = REJECTED`, clears `pending_approval`, and sets `error` to the
supplied reason when it is non-empty, and to the default
"Rejected by user" when the reason is absent *or empty* (Python `or`). -/
theorem approve_reject_caller_errors {V : Type} (s : Store V)
    (wid now : String) (reason : Option String) (ctx : WorkflowContext V) :
    (s.load wid = none →
      (approve s wid now).2 =
        Except.error (OrchestratorError.notFound wid) ∧
      (reject s wid reason now).2 =
        Except.error (OrchestratorError.notFound wid)) ∧
    (s.load wid = some ctx →
      ctx.status ≠ WorkflowStatus.waitingApproval →
      (approve s wid now).2 =
        Except.error (OrchestratorError.invalidState ctx.status) ∧
      (reject s wid reason now).2 =
        Except.error (OrchestratorError.invalidState ctx.status)) ∧
    (s.load wid = some ctx →
      ctx.status = WorkflowStatus.waitingApproval →
      ∃ c, (reject s wid reason now).2 = Except.ok c ∧
        c.status = WorkflowStatus.rejected ∧
        c.pending_approval = none ∧
        c.error = some (match reason with
          | none => "Rejected by user"
          | some r => if r = "" then "Rejected by user" else r)) := by
  refine ⟨?_, ?_, ?_⟩
  · intro h
    simp [approve, reject, h]
  · intro h hst
    simp [approve, reject, h, hst]
  · intro h hst
    have heq : (reject s wid reason now).2 = Except.ok
        { ctx.clear_approval now with
          status := WorkflowStatus.rejected
          error := some (match reason with
            | none => "Rejected by user"
            | some r => if r = "" then "Rejected by user" else r) } := by
      simp [reject, h, hst]
    exact ⟨_, heq, rfl, rfl, rfl⟩

/-- Witness for the amended C8 at concrete inputs: an empty store yields
not-found, a completed context yields invalid-state, and a waiting context
is rejected with the default reason. -/
theorem approve_reject_caller_errors_witness :
    (approve ([] : Store Nat) "w" "t1").2 =
      Except.error (OrchestratorError.notFound "w") ∧
    (reject [("w", { waitingCtx with status := WorkflowStatus.completed })]
        "w" none "t1").2 =
      Except.error (OrchestratorError.invalidState WorkflowStatus.completed) ∧
    ∃ c, (reject [("w", waitingCtx)] "w" none "t1").2 = Except.ok c ∧
      c.status = WorkflowStatus.rejected ∧
      c.pending_approval = none ∧
      c.error = some "Rejected by user" := by
  refine ⟨?_, ?_, ?_⟩
  · exact ((approve_reject_caller_errors ([] : Store Nat) "w" "t1" none
      waitingCtx).1 rfl).1
  · exact ((approve_reject_caller_errors
      [("w", { waitingCtx with status := WorkflowStatus.completed })]
      "w" "t1" none
      { waitingCtx with status := WorkflowStatus.completed }).2.1
      rfl (by decide)).2
  · exact (approve_reject_caller_errors [("w", waitingCtx)] "w" "t1" none
      waitingCtx).2.2 rfl rfl

/-- C9: `approve` has a second precondition beyond
`status == WAITING_APPROVAL`: if the loaded context's `pending_approval` is
`None` it raises "No pending approval found", even with the right status —
both conditions must hold for approval to proceed. -/
theorem approve_requires_pending_approval {V : Type} (s : Store V)
    (wid now : String) (ctx : WorkflowContext V)
    (hload : s.load wid = some ctx)
    (hst : ctx.status = WorkflowStatus.waitingApproval)
    (hpa : ctx.pending_approval = none) :
    approve s wid now =
      (s, Except.error OrchestratorError.noPendingApproval) := by
  simp [approve, hload, hst, hpa]

/-- Witness for C9: a stored context in `WAITING_APPROVAL` whose
`pending_approval` is null makes `approve` fail without touching the
store. -/
theorem approve_requires_pending_approval_witness :
    approve [("w", { waitingCtx with pending_approval := none })] "w" "t1" =
      ([("w", { waitingCtx with pending_approval := none })],
        Except.error OrchestratorError.noPendingApproval) :=
  approve_requires_pending_approval
    [("w", { waitingCtx with pending_approval := none })] "w" "t1"
    { waitingCtx with pending_approval := none } rfl rfl rfl

/-- C10: `approve` and `reject` are atomic on caller error — when they
return a not-found or invalid-state (or missing-pending-approval) error,
the store is left untouched, so `get_status` afterwards returns exactly
what it returned before the failed call. -/
theorem approve_reject_error_atomic {V : Type} (s : Store V)
    (wid now : String) (reason : Option String) :
    (∀ e, (approve s wid now).2 = Except.error e →
      (approve s wid now).1 = s ∧
      ∀ i, get_status (approve s wid now).1 i = get_status s i) ∧
    (∀ e, (reject s wid reason now).2 = Except.error e →
      (reject s wid reason now).1 = s ∧
      ∀ i, get_status (reject s wid reason now).1 i = get_status s i) := by
  constructor
  · intro e he
    suffices h : (approve s wid now).1 = s by
      exact ⟨h, fun i => by rw [h]⟩
    unfold approve at he ⊢
    cases hl : s.load wid with
    | none => simp [hl]
    | some ctx =>
      simp only [hl] at he ⊢
      by_cases hst : ctx.status = WorkflowStatus.waitingApproval
      · cases hpa : ctx.pending_approval with
        | none => simp [hst, hpa]
        | some r => simp [hst, hpa] at he
      · simp [hst]
  · intro e he
    suffices h : (reject s wid reason now).1 = s by
      exact ⟨h, fun i => by rw [h]⟩
    unfold reject at he ⊢
    cases hl : s.load wid with
    | none => simp [hl]
    | some ctx =>
      simp only [hl] at he ⊢
      by_cases hst : ctx.status = WorkflowStatus.waitingApproval
      · simp [hst] at he
      · simp [hst]

/-- Witness for C10: on an empty store both calls report not-found and the
store (hence `get_status`) is unchanged. -/
theorem approve_reject_error_atomic_witness :
    (approve ([] : Store Nat) "w" "t1").1 = [] ∧
    (reject ([] : Store Nat) "w" none "t1").1 = [] := by
  have h := approve_reject_error_atomic ([] : Store Nat) "w" "t1" none
  exact ⟨(h.1 (OrchestratorError.notFound "w") rfl).1,
    (h.2 (OrchestratorError.notFound "w") rfl).1⟩

/-- C1 counterexample: `run_single_agent` never clears a pre-existing
`pending_approval` of a caller-provided context.  Feeding it a context
parked in `WAITING_APPROVAL` (with its pending request) and a succeeding
agent persists exactly one snapshot whose status is `COMPLETED` while
`pending_approval` is still non-null — violating the persisted
invariant. -/
theorem run_single_agent_breaks_invariant_cex :
    ((run_single_agent (V := Nat)
        { name := "report_agent", requires_approval := false
          runOutcome := Except.ok
            (BaseAgent.run "report_agent" (Except.ok (some 3)) "t1") }
        (some waitingCtx) "w2" "t1").2.map
      (fun c => (c.status, c.pending_approval.isSome))) =
      [(WorkflowStatus.completed, true)] ∧
    ((run_single_agent (V := Nat)
        { name := "report_agent", requires_approval := false
          runOutcome := Except.ok
            (BaseAgent.run "report_agent" (Except.ok (some 3)) "t1") }
        (some waitingCtx) "w2" "t1").2.any
      (fun c => decide (¬ approvalInvariant c))) = true := by
  decide

/-- C1 amended: the invariant `pending_approval ≠ null ⟺ status ==
WAITING_APPROVAL` holds for every context persisted by `run_workflow`,
`approve` and `reject` unconditionally, and by `run_single_agent` whenever
the caller-provided context (if any) carries no pending approval — a fresh
context in particular.  (`run_single_agent` given a context that already
has a pending approval persists it unchanged, which is the violation in
the counterexample.) -/
theorem persisted_approval_invariant {V : Type} (nm : String)
    (agents : List (Agent V)) (skip : Bool) (wid now now' : String)
    (s : Store V) (reason : Option String) (a : Agent V)
    (ctx? : Option (WorkflowContext V))
    (hctx : ∀ c, ctx? = some c → c.pending_approval = none) :
    (∀ c ∈ (run_workflow nm agents skip wid now).2, approvalInvariant c) ∧
    (∀ c ∈ (run_single_agent a ctx? wid now).2, approvalInvariant c) ∧
    (∀ c, (approve s wid now').2 = Except.ok c →
      approvalInvariant c ∧ (approve s wid now').1 = s.save c) ∧
    (∀ c, (reject s wid reason now').2 = Except.ok c →
      approvalInvariant c ∧ (reject s wid reason now').1 = s.save c) := by
  refine ⟨?_, ?_, ?_, ?_⟩
  · intro c hc
    exact runAgents_inv _ _ now rfl rfl c hc
  · intro c hc
    cases ho : a.runOutcome with
    | error exc =>
      cases hco : ctx? with
      | none =>
        subst hco
        simp [run_single_agent, ho] at hc
      | some c0 =>
        subst hco
        simp [run_single_agent, ho] at hc
    | ok result =>
      cases hco : ctx? with
      | none =>
        subst hco
        simp [run_single_agent, ho] at hc
        subst hc
        by_cases hs : result.success = true <;>
          simp [approvalInvariant, WorkflowContext.add_result, hs]
      | some c0 =>
        have hp := hctx c0 hco
        subst hco
        simp [run_single_agent, ho] at hc
        subst hc
        by_cases hs : result.success = true <;>
          simp [approvalInvariant, WorkflowContext.add_result, hs, hp]
  · intro c hcok
    unfold approve at hcok ⊢
    cases hl : s.load wid with
    | none => simp [hl] at hcok
    | some ctx =>
      simp only [hl] at hcok ⊢
      by_cases hst : ctx.status = WorkflowStatus.waitingApproval
      · cases hpa : ctx.pending_approval with
        | none => simp [hst, hpa] at hcok
        | some r =>
          simp only [hst, hpa, ne_eq, not_true_eq_false, if_false,
            ite_false] at hcok ⊢
          simp at hcok
          subst hcok
          exact ⟨by simp [approvalInvariant, WorkflowContext.clear_approval],
            by simp⟩
      · simp [hst] at hcok
  · intro c hcok
    unfold reject at hcok ⊢
    cases hl : s.load wid with
    | none => simp [hl] at hcok
    | some ctx =>
      simp only [hl] at hcok ⊢
      by_cases hst : ctx.status = WorkflowStatus.waitingApproval
      · simp only [hst, ne_eq, not_true_eq_false, if_false,
          ite_false] at hcok ⊢
        simp at hcok
        subst hcok
        exact ⟨by simp [approvalInvariant, WorkflowContext.clear_approval],
          by simp⟩
      · simp [hst] at hcok

/-- Witness for the amended C1 at concrete inputs: a two-agent "daily" run
ending at the social approval gate, a single-agent run on a fresh context,
and an `approve` on a stored waiting context all persist only
invariant-respecting snapshots. -/
theorem persisted_approval_invariant_witness :
    (∀ c ∈ (run_workflow (V := Nat) "daily"
        [{ name := "report_agent", requires_approval := false
           runOutcome := Except.ok
             (BaseAgent.run "report_agent" (Except.ok (some 1)) "t0") },
         { name := "social_agent", requires_approval := true
           runOutcome := Except.ok
             (BaseAgent.run "social_agent" (Except.ok (some 7)) "t0") }]
        false "w" "t0").2,
      approvalInvariant c) ∧
    (∀ c ∈ (run_single_agent (V := Nat)
        { name := "report_agent", requires_approval := false
          runOutcome := Except.ok
            (BaseAgent.run "report_agent" (Except.ok (some 1)) "t0") }
        none "w1" "t0").2,
      approvalInvariant c) ∧
    (∀ c, (approve [("w", waitingCtx)] "w" "t1").2 = Except.ok c →
      approvalInvariant c) := by
  have h := persisted_approval_invariant (V := Nat) "daily"
    [{ name := "report_agent", requires_approval := false
       runOutcome := Except.ok
         (BaseAgent.run "report_agent" (Except.ok (some 1)) "t0") },
     { name := "social_agent", requires_approval := true
       runOutcome := Except.ok
         (BaseAgent.run "social_agent" (Except.ok (some 7)) "t0") }]
    false "w" "t0" "t1"
    [("w", waitingCtx)] none
    { name := "report_agent", requires_approval := false
      runOutcome := Except.ok
        (BaseAgent.run "report_agent" (Except.ok (some 1)) "t0") } none
    (fun c hc => Option.noConfusion hc)
  have h2 := persisted_approval_invariant (V := Nat) "daily" [] false "w1"
    "t0" "t1" [("w", waitingCtx)] none
    { name := "report_agent", requires_approval := false
      runOutcome := Except.ok
        (BaseAgent.run "report_agent" (Except.ok (some 1)) "t0") } none
    (fun c hc => Option.noConfusion hc)
  exact ⟨h.1, h2.2.1, fun c hc => (h.2.2.1 c hc).1⟩

/-- C2: when every agent before `a` succeeds without needing approval, `a`
requires approval and its run returns a successful result `r`,
`run_workflow` returns with `status == WAITING_APPROVAL` after recording
exactly the prefix results and `r` — no agent after `a` runs in that call;
`approve` on the persisted context then yields `COMPLETED` with
`agent_results` and `data` unchanged: approval finalizes, it does not
resume the pipeline, so no agent after `a` ever executes. -/
theorem run_workflow_approval_gate {V : Type} (nm wid now now' : String)
    (pre post : List (Agent V)) (a : Agent V) (r : AgentResult V)
    (rs : List (AgentResult V)) (s : Store V)
    (hpre : List.Forall₂ okStep pre rs)
    (ha : a.runOutcome = Except.ok r) (hs : r.success = true)
    (hap : a.requires_approval = true) :
    ∃ ctx, (run_workflow nm (pre ++ a :: post) false wid now).1 =
        Except.ok ctx ∧
      ctx.status = WorkflowStatus.waitingApproval ∧
      ctx.agent_results = rs ++ [r] ∧
      ctx.pending_approval ≠ none ∧
      ∃ c, (approve (s.save ctx) wid now').2 = Except.ok c ∧
        c.status = WorkflowStatus.completed ∧
        c.agent_results = rs ++ [r] ∧
        c.data = ctx.data := by
  have hfields := ctxAfter_fields (pre.zip rs)
    { workflow_id := wid, workflow_name := nm, created_at := now
      updated_at := now, status := WorkflowStatus.running } now
  have hkey : (run_workflow nm (pre ++ a :: post) false wid now).1 =
      Except.ok
      (({ (ctxAfter
          { workflow_id := wid, workflow_name := nm, created_at := now
            updated_at := now, status := WorkflowStatus.running }
          (pre.zip rs) now) with
          current_agent := some a.name }.add_result r now
        ).set_pending_approval
        { agent_name := a.name
          content := r.output
          content_type := "tweet_draft"
          created_at := now
          message := "Please review the tweet draft before publishing." }
        now) := by
    unfold run_workflow
    simp only [Bool.false_eq_true, if_false, ite_false]
    rw [runAgents_append_ok (a :: post) _ now hpre]
    simp only [runAgents]
    rw [ha]
    simp only [hs, Bool.true_eq_false, if_false, ite_false, hap, if_true,
      ite_true]
  have hres : (({ (ctxAfter
      { workflow_id := wid, workflow_name := nm, created_at := now
        updated_at := now, status := WorkflowStatus.running }
      (pre.zip rs) now) with
      current_agent := some a.name }.add_result r now
    ).set_pending_approval
    { agent_name := a.name
      content := r.output
      content_type := "tweet_draft"
      created_at := now
      message := "Please review the tweet draft before publishing." }
    now).agent_results = rs ++ [r] := by
    simp only [WorkflowContext.set_pending_approval,
      WorkflowContext.add_result]
    rw [hfields.2.2.2.2.2, forall₂_okStep_snd hpre]
    simp
  refine ⟨_, hkey, rfl, hres, ?_, ?_⟩
  · simp [WorkflowContext.set_pending_approval]
  · have hwid : (({ (ctxAfter
        { workflow_id := wid, workflow_name := nm, created_at := now
          updated_at := now, status := WorkflowStatus.running }
        (pre.zip rs) now) with
        current_agent := some a.name }.add_result r now
      ).set_pending_approval
      { agent_name := a.name
        content := r.output
        content_type := "tweet_draft"
        created_at := now
        message := "Please review the tweet draft before publishing." }
      now).workflow_id = wid := hfields.2.2.2.1
    have hload := dictGet_dictSet_self s wid
      (({ (ctxAfter
        { workflow_id := wid, workflow_name := nm, created_at := now
          updated_at := now, status := WorkflowStatus.running }
        (pre.zip rs) now) with
        current_agent := some a.name }.add_result r now
      ).set_pending_approval
      { agent_name := a.name
        content := r.output
        content_type := "tweet_draft"
        created_at := now
        message := "Please review the tweet draft before publishing." }
      now)
    have happ : (approve (Store.save s
        (({ (ctxAfter
          { workflow_id := wid, workflow_name := nm, created_at := now
            updated_at := now, status := WorkflowStatus.running }
          (pre.zip rs) now) with
          current_agent := some a.name }.add_result r now
        ).set_pending_approval
        { agent_name := a.name
          content := r.output
          content_type := "tweet_draft"
          created_at := now
          message := "Please review the tweet draft before publishing." }
        now)) wid now').2 = Except.ok
        { ((({ (ctxAfter
            { workflow_id := wid, workflow_name := nm, created_at := now
              updated_at := now, status := WorkflowStatus.running }
            (pre.zip rs) now) with
            current_agent := some a.name }.add_result r now
          ).set_pending_approval
          { agent_name := a.name
            content := r.output
            content_type := "tweet_draft"
            created_at := now
            message := "Please review the tweet draft before publishing." }
          now).clear_approval now') with
          status := WorkflowStatus.completed } := by
      unfold approve Store.save Store.load
      rw [hwid, hload]
      simp [WorkflowContext.set_pending_approval,
        WorkflowContext.clear_approval]
    exact ⟨_, happ, rfl, hres, rfl⟩

/-- Witness for C2: a three-agent "daily" pipeline whose social agent
requires approval; the run parks at the gate having executed only the
first two agents, and `approve` completes it without running the third. -/
theorem run_workflow_approval_gate_witness :
    ∃ ctx, (run_workflow (V := Nat) "daily"
        ([{ name := "report_agent", requires_approval := false
            runOutcome := Except.ok
              (BaseAgent.run "report_agent" (Except.ok (some 1)) "t0") }] ++
          { name := "social_agent", requires_approval := true
            runOutcome := Except.ok
              (BaseAgent.run "social_agent" (Except.ok (some 7)) "t0") } ::
          [{ name := "after_agent", requires_approval := false
             runOutcome := Except.ok
               (BaseAgent.run "after_agent" (Except.ok (some 9)) "t0") }])
        false "w" "t0").1 = Except.ok ctx ∧
      ctx.status = WorkflowStatus.waitingApproval ∧
      ∃ c, (approve (Store.save [] ctx) "w" "t1").2 = Except.ok c ∧
        c.status = WorkflowStatus.completed ∧
        c.agent_results =
          [BaseAgent.run "report_agent" (Except.ok (some 1)) "t0",
           BaseAgent.run "social_agent" (Except.ok (some 7)) "t0"] := by
  obtain ⟨ctx, h1, h2, h3, h4, c, h5, h6, h7, h8⟩ :=
    run_workflow_approval_gate (V := Nat) "daily" "w" "t0" "t1"
      [{ name := "report_agent", requires_approval := false
         runOutcome := Except.ok
           (BaseAgent.run "report_agent" (Except.ok (some 1)) "t0") }]
      [{ name := "after_agent", requires_approval := false
         runOutcome := Except.ok
           (BaseAgent.run "after_agent" (Except.ok (some 9)) "t0") }]
      { name := "social_agent", requires_approval := true
        runOutcome := Except.ok
          (BaseAgent.run "social_agent" (Except.ok (some 7)) "t0") }
      (BaseAgent.run "social_agent" (Except.ok (some 7)) "t0")
      [BaseAgent.run "report_agent" (Except.ok (some 1)) "t0"] []
      (List.Forall₂.cons ⟨rfl, rfl, rfl, rfl⟩ List.Forall₂.nil)
      rfl rfl rfl
  exact ⟨ctx, h1, h2, c, h5, h6, h7⟩

/-- C6 counterexample: `run_single_agent` on an approval-requiring agent
(`social_agent`, `requires_approval = True`) that succeeds returns a
context with `status == COMPLETED` and no pending approval — not
`WAITING_APPROVAL`: the single-agent path has no approval suspension. -/
theorem run_single_agent_no_suspension_cex :
    ∃ c, (run_single_agent (V := Nat)
        { name := "social_agent", requires_approval := true
          runOutcome := Except.ok
            (BaseAgent.run "social_agent" (Except.ok (some 5)) "t0") }
        none "w" "t0").1 = Except.ok c ∧
      c.status = WorkflowStatus.completed ∧
      c.status ≠ WorkflowStatus.waitingApproval ∧
      c.pending_approval = none := by
  exact ⟨_, rfl, rfl, by decide, rfl⟩

/-- C6 amended: `run_single_agent` follows the record/status rules of the
workflow loop but ignores `requires_approval` entirely: a successful
execution always yields `status == COMPLETED`, with `pending_approval`
left exactly as it was on the input context (`None` for a fresh one) —
the approval suspension semantics of `run_workflow` do *not* apply. -/
theorem run_single_agent_ignores_requires_approval {V : Type} (a : Agent V)
    (r : AgentResult V) (ctx? : Option (WorkflowContext V)) (wid now : String)
    (hb : a.runOutcome = Except.ok r) (hs : r.success = true) :
    ∃ c, (run_single_agent a ctx? wid now).1 = Except.ok c ∧
      c.status = WorkflowStatus.completed ∧
      c.pending_approval =
        (match ctx? with
          | some c0 => c0.pending_approval
          | none => none) := by
  cases ctx? with
  | none =>
    simp only [run_single_agent]
    rw [hb]
    refine ⟨_, rfl, ?_, ?_⟩ <;>
      simp [hs, WorkflowContext.add_result]
  | some c0 =>
    simp only [run_single_agent]
    rw [hb]
    refine ⟨_, rfl, ?_, ?_⟩ <;>
      simp [hs, WorkflowContext.add_result]

/-- Witness for the amended C6: the concrete approval-requiring social
agent completes rather than suspending. -/
theorem run_single_agent_ignores_requires_approval_witness :
    ∃ c, (run_single_agent (V := Nat)
        { name := "social_agent", requires_approval := true
          runOutcome := Except.ok
            (BaseAgent.run "social_agent" (Except.ok (some 5)) "t1") }
        none "w" "t1").1 = Except.ok c ∧
      c.status = WorkflowStatus.completed := by
  obtain ⟨c, h1, h2, h3⟩ := run_single_agent_ignores_requires_approval
    { name := "social_agent", requires_approval := true
      runOutcome := Except.ok
        (BaseAgent.run "social_agent" (Except.ok (some 5)) "t1") }
    (BaseAgent.run "social_agent" (Except.ok (some 5)) "t1") none "w" "t1"
    rfl rfl
  exact ⟨c, h1, h2⟩

/-- C7 counterexample: `OnchainAgent.run` (onchain_agent.py 65-104,
registered in main.py and run via `run_single_agent`) overrides the
`BaseAgent.run` boundary, refuting the universal claim two ways.
(i) An exception raised by its external model call is caught inside
`_generate_analysis` (onchain_agent.py 338-339) and returned as the
*text* "Error generating analysis: <msg>", which `run` wraps in a
`success=True` result (lines 99-104) — `run_single_agent` then reports
`status == COMPLETED` with `error = None`: no failed `AgentResult`, no
failure visible in the context's `status`/`error`.  (ii) Its file writes
(lines 79, 82, 97) sit outside any try/except, so an exception there
propagates out of `run` and out of `run_single_agent`/`run_workflow`. -/
theorem agent_exception_not_captured_cex :
    (OnchainAgent.runFull (Except.error "quota exceeded") none "t0").success
      = true ∧
    (OnchainAgent.runFull (Except.error "quota exceeded") none "t0").output
      = some "Error generating analysis: quota exceeded" ∧
    (∃ c, (run_single_agent (V := String)
        { name := "onchain_agent", requires_approval := false
          runOutcome := Except.ok
            (OnchainAgent.runFull (Except.error "quota exceeded") none
              "t0") }
        none "w" "t0").1 = Except.ok c ∧
      c.status = WorkflowStatus.completed ∧
      c.error = none) ∧
    (run_single_agent (V := String)
        { name := "onchain_agent", requires_approval := false
          runOutcome := Except.error "disk full" } none "w" "t0").1 =
      Except.error "disk full" ∧
    (run_workflow (V := String) "daily"
        [{ name := "onchain_agent", requires_approval := false
           runOutcome := Except.error "disk full" }] false "w" "t0").1 =
      Except.error "disk full" := by
  exact ⟨rfl, rfl, ⟨_, rfl, rfl, rfl⟩, rfl, rfl⟩

/-- C7 amended: the capture guarantee holds exactly at the inherited
`BaseAgent.run` boundary (the agents that do not override `run`:
ReportAgent, DeepAnalysisAgent, SocialAgent): an exception with message
`msg` raised inside its body — prompt building, the external model call,
response processing — is converted into `AgentResult{success: false,
error: msg}` with the message verbatim, both orchestration entry points
return normally (`.ok`, no exception), and the failure is reported only
via the returned context's `status`/`error`.  Agents overriding `run` are
outside the guarantee (see the counterexample). -/
theorem base_agent_exception_captured {V : Type} (a : Agent V)
    (msg : String) (ctx? : Option (WorkflowContext V)) (nm wid now : String)
    (hb : a.runOutcome = Except.ok
      (BaseAgent.run a.name (Except.error msg) now)) :
    BaseAgent.run (V := V) a.name (Except.error msg) now =
      { agent_name := a.name, success := false, output := none
        error := some msg, timestamp := now } ∧
    (∃ c, (run_single_agent a ctx? wid now).1 = Except.ok c ∧
      c.status = WorkflowStatus.failed ∧ c.error = some msg) ∧
    (∃ c, (run_workflow nm [a] false wid now).1 = Except.ok c ∧
      c.status = WorkflowStatus.failed ∧ c.error = some msg) := by
  refine ⟨rfl, ?_, ?_⟩
  · simp only [run_single_agent]
    rw [hb]
    exact ⟨_, rfl, rfl, rfl⟩
  · unfold run_workflow
    simp only [Bool.false_eq_true, if_false, ite_false, runAgents]
    rw [hb]
    exact ⟨_, rfl, rfl, rfl⟩

/-- Witness for the amended C7: a concrete agent inheriting
`BaseAgent.run` raises "api quota exceeded"; the message is captured
verbatim and surfaces as a failed context from `run_single_agent`. -/
theorem base_agent_exception_captured_witness :
    BaseAgent.run (V := Nat) "report_agent"
      (Except.error "api quota exceeded") "t0" =
      { agent_name := "report_agent", success := false, output := none
        error := some "api quota exceeded", timestamp := "t0" } ∧
    ∃ c, (run_single_agent (V := Nat)
        { name := "report_agent", requires_approval := false
          runOutcome := Except.ok
            (BaseAgent.run "report_agent" (Except.error "api quota exceeded")
              "t0") }
        none "w" "t0").1 = Except.ok c ∧
      c.status = WorkflowStatus.failed ∧
      c.error = some "api quota exceeded" := by
  have h := base_agent_exception_captured (V := Nat)
    { name := "report_agent", requires_approval := false
      runOutcome := Except.ok
        (BaseAgent.run "report_agent" (Except.error "api quota exceeded")
          "t0") }
    "api quota exceeded" none "daily" "w" "t0" rfl
  exact ⟨h.1, h.2.1⟩


end MarketAgent
